import Mathlib

/-!
Verification of the LensOS demand-planning pipeline.

This file shallowly embeds the analytical core of the repository
(capacity optimizer, scenario simulator, forecaster confidence scoring,
cold-start neighbor query, recommendation engine) as executable Lean
definitions over exact rationals, and proves/refutes the specification
claims about them.

Modelling conventions:
- pandas/numpy `.round(n)` and Python `round(x, n)` round half to even;
  they are modelled by `rhe` / `roundTo` below in exact rational
  arithmetic.
- Python `int(x)` truncates toward zero; it is modelled by `pyInt`.
- Missing values (NaN) arising from failed left joins are modelled with
  `Option`; a computation that would raise in Python returns `none`.
- String identifiers (sku_id, store_id, city, power_cluster) are
  modelled as natural numbers; only decidable equality of identifiers
  is ever used by the code.
-/

namespace LensOS

/-- Round half to even on rationals: the rounding used by Python's
built-in `round` and by numpy/pandas `.round()`. -/
def rhe (q : ℚ) : ℤ :=
  let f := ⌊q⌋
  let r := q - f
  if r < 1/2 then f
  else if 1/2 < r then f + 1
  else if f % 2 = 0 then f else f + 1

/-- Round half to even keeping `n` decimal digits, as a rational:
models `round(x, n)` / `Series.round(n)`. -/
def roundTo (n : ℕ) (q : ℚ) : ℚ := (rhe (q * 10 ^ n) : ℚ) / 10 ^ n

/-- Python `int(x)`: truncation toward zero. -/
def pyInt (q : ℚ) : ℤ := if 0 ≤ q then ⌊q⌋ else ⌈q⌉

theorem rhe_ge (q : ℚ) : q - 1/2 ≤ (rhe q : ℚ) := by
  simp only [rhe]
  have h1 : (⌊q⌋ : ℚ) ≤ q := Int.floor_le q
  have h2 : q < (⌊q⌋ : ℚ) + 1 := Int.lt_floor_add_one q
  split
  · next h => linarith
  · split
    · next h => push_cast; linarith
    · split
      · next h => linarith
      · next h => push_cast; linarith

theorem rhe_le (q : ℚ) : (rhe q : ℚ) ≤ q + 1/2 := by
  simp only [rhe]
  have h1 : (⌊q⌋ : ℚ) ≤ q := Int.floor_le q
  have h2 : q < (⌊q⌋ : ℚ) + 1 := Int.lt_floor_add_one q
  split
  · next h => linarith
  · split
    · next h => push_cast; linarith
    · next hlt hgt =>
      have hr : q - (⌊q⌋ : ℚ) = 1/2 := by linarith [le_of_not_lt hlt, le_of_not_lt hgt]
      split
      · linarith
      · push_cast; linarith

theorem rhe_le_of_le {q : ℚ} {n : ℤ} (h : q ≤ n) : rhe q ≤ n := by
  have h1 : (rhe q : ℚ) ≤ (n : ℚ) + 1/2 := le_trans (rhe_le q) (by linarith)
  have h2 : (rhe q : ℚ) < ((n + 1 : ℤ) : ℚ) := by push_cast; linarith
  exact Int.lt_add_one_iff.mp (by exact_mod_cast h2)

theorem le_rhe_of_le {n : ℤ} {q : ℚ} (h : (n : ℚ) ≤ q) : n ≤ rhe q := by
  have h1 : (n : ℚ) - 1/2 ≤ (rhe q : ℚ) := le_trans (by linarith) (rhe_ge q)
  have h2 : ((n - 1 : ℤ) : ℚ) < (rhe q : ℚ) := by push_cast; linarith
  have := Int.lt_iff_add_one_le.mp (by exact_mod_cast h2)
  omega

theorem rhe_intCast (n : ℤ) : rhe (n : ℚ) = n := by
  have h1 : rhe (n : ℚ) ≤ n := rhe_le_of_le le_rfl
  have h2 : n ≤ rhe (n : ℚ) := le_rhe_of_le le_rfl
  omega

theorem rhe_nonneg {q : ℚ} (h : 0 ≤ q) : 0 ≤ rhe q :=
  le_rhe_of_le (by exact_mod_cast h)


/-! ## Capacity optimizer (src/capacity_optimizer.py) -/

/-- Price band of a product (products.csv column price_band). -/
inductive Band
  | low
  | mid
  | high
  | premium
deriving DecidableEq, Repr

/-- Margin multiplier per price band (MARGIN_MAP in capacity_optimizer.py). -/
def MARGIN_MAP : Band → ℚ
  | .low => 1
  | .mid => 13/10
  | .high => 8/5
  | .premium => 2

/-- A catalog entry (relevant columns of products.csv). -/
structure Product where
  sku_id : ℕ
  price_band : Band
  base_cost : ℚ
deriving DecidableEq, Repr

/-- A production-plan row (production_plan.csv). -/
structure PlanItem where
  sku_id : ℕ
  power_cluster : ℕ
  recommended_production_qty : ℤ
deriving DecidableEq, Repr

/-- TOTAL_CAPACITY = TOTAL_DAILY_CAPACITY * PRODUCTION_DAYS = 10000 * 7. -/
def TOTAL_CAPACITY : ℤ := 70000

/-- pandas Series.median over the non-missing values: sort, take the middle
element (odd length) or the mean of the two middle elements (even length). -/
def median (xs : List ℚ) : Option ℚ :=
  let s := xs.insertionSort (· ≤ ·)
  if s.length = 0 then none
  else if s.length % 2 = 1 then some (s.getD (s.length / 2) 0)
  else some ((s.getD (s.length / 2 - 1) 0 + s.getD (s.length / 2) 0) / 2)

/-- Left-join lookup of a sku in the catalog after drop_duplicates on sku_id:
the first matching product, if any. -/
def sku_lookup (products : List Product) (s : ℕ) : Option Product :=
  products.find? (fun p => p.sku_id == s)

/-- The merged base_cost column of the production plan: each row takes the
cost of the first catalog product with its sku_id, and missing values are
filled with the median of the column (lines 63-66 of capacity_optimizer.py).
Returns none when every cost is missing and the plan is non-empty, in which
case every margin would be NaN and the LP call would raise. -/
def resolveCosts (production : List PlanItem) (products : List Product) : Option (List ℚ) :=
  match median ((production.map
      (fun it => (sku_lookup products it.sku_id).map Product.base_cost)).filterMap id) with
  | some m => some (production.map
      (fun it => ((sku_lookup products it.sku_id).map Product.base_cost).getD m))
  | none => if production.isEmpty then some [] else none

/-- The merged price_band of a plan row, with missing values filled with mid
(line 65 of capacity_optimizer.py). -/
def resolveBand (products : List Product) (s : ℕ) : Band :=
  ((sku_lookup products s).map Product.price_band).getD .mid

/-- Model of the solution vector returned by the LP solver on success for
the problem max Σ margin_i x_i subject to Σ x_i ≤ rem, 0 ≤ x_i ≤ r_i:
a feasible vertex that fills each variable up to its bound while capacity
remains. Only feasibility (0 ≤ x_i ≤ r_i, Σ x_i ≤ rem) and integrality for
integral data are relied on by the theorems below — these hold for every
basic solution the HiGHS solver can return on this problem, whatever
objective-driven order it cuts variables in. -/
def greedyFill : ℚ → List ℚ → List ℚ
  | _, [] => []
  | rem, r :: rs =>
    let q := min r (max rem 0)
    q :: greedyFill (rem - q) rs

/-- Integer version of greedyFill, used to reason about the rounded
solution on integral data. -/
def intGreedy : ℤ → List ℤ → List ℤ
  | _, [] => []
  | rem, r :: rs =>
    let q := min r (max rem 0)
    q :: intGreedy (rem - q) rs

/-- One output row of the optimizer (optimized_production_plan.csv). -/
structure OptRow where
  sku_id : ℕ
  power_cluster : ℕ
  recommended_production_qty : ℤ
  price_band : Band
  base_cost : ℚ
  margin : ℚ
  optimized_qty : ℤ
  revenue_captured : ℚ
  revenue_lost : ℚ
deriving DecidableEq, Repr

/-- The optimizer result: the output rows, the (constant) per-run
capacity_utilization_pct column, and whether the solver-failure warning
was printed. -/
structure OptResult where
  rows : List OptRow
  capacity_utilization_pct : ℚ
  warning : Bool
deriving DecidableEq, Repr

/-- Assemble output rows from the plan, the resolved costs and the
optimized quantities (positional, like the dataframe columns). -/
def mkRows (products : List Product) : List PlanItem → List ℚ → List ℤ → List OptRow
  | it :: its, c :: cs, q :: qs =>
    { sku_id := it.sku_id
      power_cluster := it.power_cluster
      recommended_production_qty := it.recommended_production_qty
      price_band := resolveBand products it.sku_id
      base_cost := c
      margin := MARGIN_MAP (resolveBand products it.sku_id) * c
      optimized_qty := q
      revenue_captured := (q : ℚ) * c * (3/2)
      revenue_lost := ((it.recommended_production_qty : ℚ) - (q : ℚ)) * c * (3/2) } ::
      mkRows products its cs qs
  | _, _, _ => []

/-- The optimized_qty column: on solver success the (rounded) solver
solution np.round(result.x) (line 89), on failure the unchanged
recommended quantities (line 87). -/
def optQty (production : List PlanItem) (capacity : ℤ) (solverOk : Bool) : List ℤ :=
  if solverOk then
    (greedyFill (capacity : ℚ)
      (production.map (fun it => (it.recommended_production_qty : ℚ)))).map rhe
  else production.map (·.recommended_production_qty)

/-- CapacityOptimizer.optimise. The boolean solverOk models result.success
of the scipy linprog call; on failure the plan quantities are kept as-is
and a warning is emitted (lines 85-87). Returns none exactly when the
Python code would raise before producing a result: capacity = 0 (division
by zero in the utilization), a negative recommended quantity (invalid LP
bounds), or all-missing costs (NaN objective). -/
def optimise (production : List PlanItem) (products : List Product) (capacity : ℤ)
    (solverOk : Bool) : Option OptResult :=
  if capacity = 0 then none
  else if production.any (fun it => it.recommended_production_qty < 0) then none
  else
    match resolveCosts production products with
    | none => none
    | some costs =>
      some
        { rows := mkRows products production costs (optQty production capacity solverOk)
          capacity_utilization_pct :=
            roundTo 1 (((optQty production capacity solverOk).sum : ℚ) / (capacity : ℚ) * 100)
          warning := !solverOk }


/-! ### Optimizer lemmas -/

theorem greedyFill_length (rem : ℚ) (rs : List ℚ) : (greedyFill rem rs).length = rs.length := by
  induction rs generalizing rem with
  | nil => rfl
  | cons r rs ih => simp [greedyFill, ih]

theorem greedyFill_intCast (rem : ℤ) (rs : List ℤ) :
    greedyFill (rem : ℚ) (rs.map (fun (z : ℤ) => (z : ℚ))) =
      (intGreedy rem rs).map (fun (z : ℤ) => (z : ℚ)) := by
  induction rs generalizing rem with
  | nil => rfl
  | cons r rs ih =>
    have hmin : (min (r : ℚ) (max (rem : ℚ) 0)) = ((min r (max rem 0) : ℤ) : ℚ) := by
      push_cast
      rfl
    simp only [List.map_cons, greedyFill, intGreedy, hmin, List.cons.injEq, true_and]
    rw [show (rem : ℚ) - ((min r (max rem 0) : ℤ) : ℚ) = ((rem - min r (max rem 0) : ℤ) : ℚ) by
      push_cast
      ring]
    exact ih _

theorem intGreedy_bounds (rem : ℤ) (rs : List ℤ) (h : ∀ r ∈ rs, 0 ≤ r) :
    List.Forall₂ (fun r q => 0 ≤ q ∧ q ≤ r) rs (intGreedy rem rs) := by
  induction rs generalizing rem with
  | nil => exact List.Forall₂.nil
  | cons r rs ih =>
    have hr : 0 ≤ r := h r (by simp)
    refine List.Forall₂.cons ⟨?_, ?_⟩ (ih _ (fun x hx => h x (by simp [hx])))
    · exact le_min hr (le_max_right _ _)
    · exact min_le_left _ _

theorem intGreedy_sum_le (rem : ℤ) (rs : List ℤ) (h : ∀ r ∈ rs, 0 ≤ r) :
    (intGreedy rem rs).sum ≤ max rem 0 := by
  induction rs generalizing rem with
  | nil => simp [intGreedy, le_max_right]
  | cons r rs ih =>
    have hr : 0 ≤ r := h r (by simp)
    have ihh := ih (rem - min r (max rem 0)) (fun x hx => h x (by simp [hx]))
    simp only [intGreedy, List.sum_cons]
    rcases le_or_lt rem 0 with hrem | hrem
    · have hq : min r (max rem 0) = min r 0 := by rw [max_eq_right hrem]
      have hq0 : min r 0 = 0 := min_eq_right hr
      rw [hq, hq0] at ihh ⊢
      simpa using ihh
    · have hq : min r (max rem 0) = min r rem := by rw [max_eq_left hrem.le]
      rw [hq] at ihh ⊢
      have h1 : min r rem ≤ rem := min_le_right _ _
      have h2 : 0 ≤ min r rem := le_min hr hrem.le
      have h3 : max (rem - min r rem) 0 = rem - min r rem := max_eq_left (by omega)
      rw [h3] at ihh
      have : min r rem + (intGreedy (rem - min r rem) rs).sum ≤ rem := by omega
      exact le_trans this (le_max_left _ _)

theorem intGreedy_of_sum_le (rem : ℤ) (rs : List ℤ) (h : ∀ r ∈ rs, 0 ≤ r)
    (hs : rs.sum ≤ rem) : intGreedy rem rs = rs := by
  induction rs generalizing rem with
  | nil => rfl
  | cons r rs ih =>
    have hr : 0 ≤ r := h r (by simp)
    have hrest : 0 ≤ rs.sum := List.sum_nonneg (fun x hx => h x (by simp [hx]))
    have hsum : r + rs.sum ≤ rem := by simpa using hs
    have hrem : 0 ≤ rem := by omega
    have hq : min r (max rem 0) = r := by
      rw [max_eq_left hrem, min_eq_left (by omega)]
    simp only [intGreedy, hq, List.cons.injEq, true_and]
    exact ih (rem - r) (fun x hx => h x (by simp [hx])) (by omega)

theorem resolveCosts_length (production : List PlanItem) (products : List Product)
    (costs : List ℚ) (hc : resolveCosts production products = some costs) :
    costs.length = production.length := by
  unfold resolveCosts at hc
  split at hc
  · simp only [Option.some.injEq] at hc
    subst hc
    simp
  · split at hc
    · next he =>
      simp only [Option.some.injEq] at hc
      subst hc
      simp [List.isEmpty_iff.mp he]
    · exact absurd hc (by simp)

theorem mkRows_map_optimized (products : List Product) :
    ∀ (its : List PlanItem) (cs : List ℚ) (qs : List ℤ),
      its.length = cs.length → cs.length = qs.length →
      (mkRows products its cs qs).map (·.optimized_qty) = qs
  | [], [], [], _, _ => rfl
  | it :: its, c :: cs, q :: qs, h1, h2 => by
    simp only [mkRows, List.map_cons, List.cons.injEq, true_and]
    exact mkRows_map_optimized products its cs qs (by simpa using h1) (by simpa using h2)
  | [], [], _ :: _, _, h2 => by simp at h2
  | [], _ :: _, _, h1, _ => by simp at h1
  | _ :: _, [], _, h1, _ => by simp at h1
  | _ :: _, _ :: _, [], _, h2 => by simp at h2

theorem mkRows_opt_bounds (products : List Product) :
    ∀ (its : List PlanItem) (cs : List ℚ) (qs : List ℤ),
      List.Forall₂ (fun (it : PlanItem) (q : ℤ) =>
        0 ≤ q ∧ q ≤ it.recommended_production_qty) its qs →
      ∀ row ∈ mkRows products its cs qs,
        0 ≤ row.optimized_qty ∧ row.optimized_qty ≤ row.recommended_production_qty := by
  intro its
  induction its with
  | nil => intro cs qs _ row hrow; cases cs <;> simp [mkRows] at hrow
  | cons it its ih =>
    intro cs qs hf row hrow
    cases hf with
    | cons hq hrest =>
      cases cs with
      | nil => simp [mkRows] at hrow
      | cons c cs =>
        simp only [mkRows, List.mem_cons] at hrow
        rcases hrow with hrow | hrow
        · subst hrow; exact hq
        · exact ih cs _ hrest row hrow

theorem mkRows_fallback (products : List Product) :
    ∀ (its : List PlanItem) (cs : List ℚ),
      ∀ row ∈ mkRows products its cs (its.map (·.recommended_production_qty)),
        row.optimized_qty = row.recommended_production_qty ∧ row.revenue_lost = 0 := by
  intro its
  induction its with
  | nil => intro cs row hrow; cases cs <;> simp [mkRows] at hrow
  | cons it its ih =>
    intro cs row hrow
    cases cs with
    | nil => simp [mkRows] at hrow
    | cons c cs =>
      simp only [List.map_cons, mkRows, List.mem_cons] at hrow
      rcases hrow with hrow | hrow
      · subst hrow
        refine ⟨rfl, ?_⟩
        simp
      · exact ih cs row hrow

theorem mkRows_revenue_captured (products : List Product) :
    ∀ (its : List PlanItem) (cs : List ℚ) (qs : List ℤ),
      ∀ row ∈ mkRows products its cs qs,
        row.revenue_captured = (row.optimized_qty : ℚ) * row.base_cost * (3/2) := by
  intro its
  induction its with
  | nil => intro cs qs row hrow; cases cs <;> simp [mkRows] at hrow
  | cons it its ih =>
    intro cs qs row hrow
    cases cs with
    | nil => simp [mkRows] at hrow
    | cons c cs =>
      cases qs with
      | nil => simp [mkRows] at hrow
      | cons q qs =>
        simp only [mkRows, List.mem_cons] at hrow
        rcases hrow with hrow | hrow
        · subst hrow; rfl
        · exact ih cs qs row hrow

theorem mkRows_map_revenue (products : List Product) :
    ∀ (its : List PlanItem) (cs : List ℚ),
      (mkRows products its cs (its.map (·.recommended_production_qty))).map (·.revenue_captured) =
        List.zipWith (fun (it : PlanItem) (c : ℚ) =>
          ((it.recommended_production_qty : ℚ)) * c * (3/2)) its cs
  | [], cs => by cases cs <;> rfl
  | it :: its, [] => rfl
  | it :: its, c :: cs => by
    simp only [List.map_cons, mkRows, List.zipWith_cons_cons, List.cons.injEq, true_and]
    exact mkRows_map_revenue products its cs


theorem map_rhe_intCast (l : List ℤ) : l.map (fun (z : ℤ) => rhe (z : ℚ)) = l := by
  induction l with
  | nil => rfl
  | cons x l ih => simp [rhe_intCast, ih]

theorem optQty_true (production : List PlanItem) (capacity : ℤ) :
    optQty production capacity true =
      intGreedy capacity (production.map (·.recommended_production_qty)) := by
  unfold optQty
  rw [if_pos rfl,
    show production.map (fun it => ((it.recommended_production_qty : ℤ) : ℚ)) =
      (production.map (·.recommended_production_qty)).map (fun (z : ℤ) => (z : ℚ)) by
        rw [List.map_map]; rfl,
    greedyFill_intCast, List.map_map]
  exact map_rhe_intCast _

theorem optimise_eq (production : List PlanItem) (products : List Product) (capacity : ℤ)
    (ok : Bool) (hcap : capacity ≠ 0)
    (hneg : production.any (fun it => it.recommended_production_qty < 0) = false)
    (costs : List ℚ) (hc : resolveCosts production products = some costs) :
    optimise production products capacity ok = some
      { rows := mkRows products production costs (optQty production capacity ok)
        capacity_utilization_pct :=
          roundTo 1 (((optQty production capacity ok).sum : ℚ) / (capacity : ℚ) * 100)
        warning := !ok } := by
  simp [optimise, hcap, hneg, hc]

theorem optimise_some_inv (production : List PlanItem) (products : List Product) (capacity : ℤ)
    (ok : Bool) (res : OptResult) (h : optimise production products capacity ok = some res) :
    capacity ≠ 0 ∧
      production.any (fun it => it.recommended_production_qty < 0) = false ∧
      ∃ costs, resolveCosts production products = some costs ∧
        res = { rows := mkRows products production costs (optQty production capacity ok)
                capacity_utilization_pct :=
                  roundTo 1 (((optQty production capacity ok).sum : ℚ) / (capacity : ℚ) * 100)
                warning := !ok } := by
  by_cases hcap : capacity = 0
  · simp [optimise, hcap] at h
  by_cases hneg : production.any (fun it => it.recommended_production_qty < 0) = true
  · simp [optimise, hcap, hneg] at h
  have hneg' : production.any (fun it => it.recommended_production_qty < 0) = false := by
    simpa using hneg
  cases hc : resolveCosts production products with
  | none => simp [optimise, hcap, hneg', hc] at h
  | some costs =>
    rw [optimise_eq production products capacity ok hcap hneg' costs hc] at h
    exact ⟨hcap, hneg', costs, rfl, (Option.some.inj h).symm⟩

theorem any_neg_eq_false (production : List PlanItem)
    (hpos : ∀ it ∈ production, 0 ≤ it.recommended_production_qty) :
    production.any (fun it => it.recommended_production_qty < 0) = false := by
  rw [List.any_eq_false]
  intro it hit
  simpa using hpos it hit

theorem nonneg_of_any_neg_false (production : List PlanItem)
    (hneg : production.any (fun it => it.recommended_production_qty < 0) = false) :
    ∀ it ∈ production, 0 ≤ it.recommended_production_qty := by
  rw [List.any_eq_false] at hneg
  intro it hit
  simpa using hneg it hit

theorem intGreedy_length (rem : ℤ) (rs : List ℤ) : (intGreedy rem rs).length = rs.length := by
  induction rs generalizing rem with
  | nil => rfl
  | cons r rs ih => simp [intGreedy, ih]

/-- Claim C2 (amended), optimizer invariants on solver success: whenever the
LP solver succeeds, every optimized quantity lies between 0 and the
recommended quantity of its row, and the optimized quantities sum to at
most the capacity. (The claim as frozen also asserts the sum bound for
solver-failure runs, which is false: see the counterexample.) -/
theorem optimise_success_respects_bounds_and_capacity
    (production : List PlanItem) (products : List Product) (capacity : ℤ) (res : OptResult)
    (hcap : 0 ≤ capacity)
    (h : optimise production products capacity true = some res) :
    (∀ row ∈ res.rows,
      0 ≤ row.optimized_qty ∧ row.optimized_qty ≤ row.recommended_production_qty) ∧
    (res.rows.map (·.optimized_qty)).sum ≤ capacity := by
  obtain ⟨hcap0, hneg, costs, hc, hres⟩ := optimise_some_inv production products capacity true res h
  have hpos := nonneg_of_any_neg_false production hneg
  subst hres
  rw [optQty_true]
  have hrecs : ∀ r ∈ production.map (·.recommended_production_qty), 0 ≤ r := by
    intro r hr
    obtain ⟨it, hit, rfl⟩ := List.mem_map.mp hr
    exact hpos it hit
  have hf := intGreedy_bounds capacity (production.map (·.recommended_production_qty)) hrecs
  have hf' : List.Forall₂ (fun (it : PlanItem) (q : ℤ) =>
      0 ≤ q ∧ q ≤ it.recommended_production_qty) production
      (intGreedy capacity (production.map (·.recommended_production_qty))) :=
    List.forall₂_map_left_iff.mp hf
  constructor
  · exact mkRows_opt_bounds products production costs _ hf'
  · rw [mkRows_map_optimized products production costs _
      (resolveCosts_length production products costs hc).symm
      (by rw [resolveCosts_length production products costs hc, intGreedy_length]; simp)]
    have := intGreedy_sum_le capacity (production.map (·.recommended_production_qty)) hrecs
    rwa [max_eq_left hcap] at this

/-- Claim C2 counterexample: on a solver-failure run the optimizer keeps
the recommended quantities, so with one item of recommended quantity 2 and
capacity 1 the optimized quantities sum to 2 > 1 — the claimed capacity
bound does not hold after every run. -/
theorem optimise_fallback_exceeds_capacity :
    ∃ res, optimise [⟨0, 0, 2⟩] [⟨0, Band.mid, 1⟩] 1 false = some res ∧
      (res.rows.map (·.optimized_qty)).sum = 2 ∧
      ¬ ((res.rows.map (·.optimized_qty)).sum ≤ 1) := by
  refine ⟨{ rows := [{ sku_id := 0, power_cluster := 0, recommended_production_qty := 2,
                       price_band := Band.mid, base_cost := 1, margin := 13/10,
                       optimized_qty := 2, revenue_captured := 3, revenue_lost := 0 }],
            capacity_utilization_pct := 200, warning := true }, ?_, by norm_num, by norm_num⟩
  norm_num [optimise, optQty, resolveCosts, sku_lookup, median, mkRows, resolveBand,
    MARGIN_MAP, roundTo, rhe]

/-- The single output row of claim C2's witness run. -/
def c2WitRow : OptRow :=
  { sku_id := 0, power_cluster := 0, recommended_production_qty := 3,
    price_band := Band.mid, base_cost := 2, margin := 13/5,
    optimized_qty := 2, revenue_captured := 6, revenue_lost := 3 }

/-- The optimizer result of claim C2's witness run. -/
def c2WitRes : OptResult :=
  { rows := [c2WitRow], capacity_utilization_pct := 100, warning := false }

/-- Witness for claim C2's theorem: a concrete success run with capacity 2
and one item of recommended quantity 3 where the optimizer cuts to 2,
satisfying the bounds and the capacity constraint. -/
theorem optimise_success_respects_bounds_and_capacity_witness :
    (0 ≤ c2WitRow.optimized_qty ∧
      c2WitRow.optimized_qty ≤ c2WitRow.recommended_production_qty) ∧
    (c2WitRes.rows.map (·.optimized_qty)).sum ≤ 2 := by
  have h := optimise_success_respects_bounds_and_capacity [⟨0, 0, 3⟩] [⟨0, Band.mid, 2⟩] 2
    c2WitRes (by norm_num)
    (by norm_num [optimise, optQty, greedyFill, resolveCosts, sku_lookup, median, mkRows,
      resolveBand, MARGIN_MAP, roundTo, rhe, c2WitRes, c2WitRow])
  exact ⟨h.1 c2WitRow (by simp [c2WitRes]), h.2⟩

/-- Claim C4: when the capacity is at least the total recommended quantity,
the optimizer returns optimized_qty equal to recommended_qty on every row
and total revenue_lost 0 — on both the solver-success and the
solver-failure branch. -/
theorem optimise_no_cut_when_capacity_sufficient
    (production : List PlanItem) (products : List Product) (capacity : ℤ) (ok : Bool)
    (res : OptResult)
    (hsum : (production.map (·.recommended_production_qty)).sum ≤ capacity)
    (h : optimise production products capacity ok = some res) :
    (∀ row ∈ res.rows, row.optimized_qty = row.recommended_production_qty) ∧
    (res.rows.map (·.revenue_lost)).sum = 0 := by
  obtain ⟨hcap0, hneg, costs, hc, hres⟩ := optimise_some_inv production products capacity ok res h
  have hpos := nonneg_of_any_neg_false production hneg
  subst hres
  have hq : optQty production capacity ok = production.map (·.recommended_production_qty) := by
    cases ok with
    | false => rfl
    | true =>
      rw [optQty_true]
      refine intGreedy_of_sum_le capacity _ ?_ hsum
      intro r hr
      obtain ⟨it, hit, rfl⟩ := List.mem_map.mp hr
      exact hpos it hit
  rw [hq]
  refine ⟨fun row hrow => (mkRows_fallback products production costs row hrow).1, ?_⟩
  refine List.sum_eq_zero ?_
  intro x hx
  obtain ⟨row, hrow, rfl⟩ := List.mem_map.mp hx
  exact (mkRows_fallback products production costs row hrow).2

/-- The single output row of claim C4's witness run. -/
def c4WitRow : OptRow :=
  { sku_id := 0, power_cluster := 0, recommended_production_qty := 3,
    price_band := Band.mid, base_cost := 2, margin := 13/5,
    optimized_qty := 3, revenue_captured := 9, revenue_lost := 0 }

/-- The optimizer result of claim C4's witness run. -/
def c4WitRes : OptResult :=
  { rows := [c4WitRow], capacity_utilization_pct := 30, warning := false }

/-- Witness for claim C4's theorem: one item of recommended quantity 3
with capacity 10; the optimizer keeps the full quantity and loses no
revenue. -/
theorem optimise_no_cut_when_capacity_sufficient_witness :
    c4WitRow.optimized_qty = c4WitRow.recommended_production_qty ∧
    (c4WitRes.rows.map (·.revenue_lost)).sum = 0 := by
  have h := optimise_no_cut_when_capacity_sufficient [⟨0, 0, 3⟩] [⟨0, Band.mid, 2⟩] 10 true
    c4WitRes (by norm_num)
    (by norm_num [optimise, optQty, greedyFill, resolveCosts, sku_lookup, median, mkRows,
      resolveBand, MARGIN_MAP, roundTo, rhe, c4WitRes, c4WitRow])
  exact ⟨h.1 c4WitRow (by simp [c4WitRes]), h.2⟩

/-- Claim C9: on solver failure, optimise recovers by keeping
optimized_qty = recommended_qty on every row (no cut), emits the warning
signal, never raises (it still returns a result for any well-formed
input), and the revenue and utilization fields are computed from the
fallback quantities. -/
theorem optimise_solver_failure_fallback
    (production : List PlanItem) (products : List Product) (capacity : ℤ)
    (hcap : capacity ≠ 0)
    (hpos : ∀ it ∈ production, 0 ≤ it.recommended_production_qty)
    (costs : List ℚ) (hc : resolveCosts production products = some costs) :
    ∃ res, optimise production products capacity false = some res ∧
      res.warning = true ∧
      (∀ row ∈ res.rows,
        row.optimized_qty = row.recommended_production_qty ∧
        row.revenue_lost = 0 ∧
        row.revenue_captured = (row.optimized_qty : ℚ) * row.base_cost * (3/2)) ∧
      res.capacity_utilization_pct =
        roundTo 1 ((((production.map (·.recommended_production_qty)).sum : ℤ) : ℚ) /
          (capacity : ℚ) * 100) := by
  have heq := optimise_eq production products capacity false hcap
    (any_neg_eq_false production hpos) costs hc
  refine ⟨_, heq, rfl, ?_, ?_⟩
  · intro row hrow
    have hq : optQty production capacity false = production.map (·.recommended_production_qty) := rfl
    rw [hq] at hrow
    exact ⟨(mkRows_fallback products production costs row hrow).1,
      (mkRows_fallback products production costs row hrow).2,
      mkRows_revenue_captured products production costs _ row hrow⟩
  · rfl

/-- The single output row of claim C9's witness run. -/
def c9WitRow : OptRow :=
  { sku_id := 1, power_cluster := 2, recommended_production_qty := 4,
    price_band := Band.high, base_cost := 3, margin := 24/5,
    optimized_qty := 4, revenue_captured := 18, revenue_lost := 0 }

/-- The optimizer result of claim C9's witness run. -/
def c9WitRes : OptResult :=
  { rows := [c9WitRow], capacity_utilization_pct := 200, warning := true }

/-- Witness for claim C9's theorem: a failure run with capacity 2 and a
recommended quantity of 4 — the fallback keeps all 4 units, sets the
warning, and reports utilization 200%. -/
theorem optimise_solver_failure_fallback_witness :
    c9WitRes.warning = true ∧
    c9WitRow.optimized_qty = c9WitRow.recommended_production_qty ∧
    c9WitRow.revenue_lost = 0 ∧
    c9WitRow.revenue_captured = (c9WitRow.optimized_qty : ℚ) * c9WitRow.base_cost * (3/2) ∧
    c9WitRes.capacity_utilization_pct =
      roundTo 1 ((((([⟨1, 2, 4⟩] : List PlanItem).map
        (·.recommended_production_qty)).sum : ℤ) : ℚ) / ((2 : ℤ) : ℚ) * 100) := by
  obtain ⟨res, hres, hw, hrows, hutil⟩ :=
    optimise_solver_failure_fallback [⟨1, 2, 4⟩] [⟨1, Band.high, 3⟩] 2 (by norm_num)
      (by norm_num) [3] (by norm_num [resolveCosts, sku_lookup, median])
  have hres2 : optimise [⟨1, 2, 4⟩] [⟨1, Band.high, 3⟩] 2 false = some c9WitRes := by
    norm_num [optimise, optQty, resolveCosts, sku_lookup, median, mkRows, resolveBand,
      MARGIN_MAP, roundTo, rhe, c9WitRes, c9WitRow]
  have heq : res = c9WitRes := Option.some.inj (hres.symm.trans hres2)
  subst heq
  have hrow := hrows c9WitRow (by simp [c9WitRes])
  exact ⟨hw, hrow.1, hrow.2.1, hrow.2.2, hutil⟩

/-! ## Scenario simulator (src/scenario_simulator.py) -/

/-- A forecast row (forecast_next_week.csv); the date column never enters
the computations modelled here. -/
structure FcRow where
  store_id : ℕ
  city : ℕ
  sku_id : ℕ
  power_cluster : ℕ
  predicted_demand : ℚ
deriving DecidableEq, Repr

/-- Distinct keys of a list in order of first occurrence, as produced by a
pandas groupby (pandas additionally sorts the keys; none of the verified
properties depend on row order). -/
def dedupKeys {α : Type} [DecidableEq α] : List α → List α
  | [] => []
  | k :: rest => k :: (dedupKeys rest).filter (fun x => !(x == k))

/-- groupby(['sku_id','power_cluster']) keys of a forecast. -/
def groupKeys (fc : List FcRow) : List (ℕ × ℕ) :=
  dedupKeys (fc.map (fun r => (r.sku_id, r.power_cluster)))

/-- Total predicted demand of one (sku_id, power_cluster) group. -/
def groupDemand (fc : List FcRow) (k : ℕ × ℕ) : ℚ :=
  ((fc.filter (fun r => r.sku_id == k.1 && r.power_cluster == k.2)).map
    (·.predicted_demand)).sum

/-- The production plan recomputed from a forecast: demand summed per
(sku_id, power_cluster) and multiplied by the 1.15 safety buffer, rounded
to int. This models both
ManufacturingRecommendationEngine.generate_production_recommendations
(recommendation_engine.py lines 51-64) and step 3 of
ScenarioSimulator.run_scenario (scenario_simulator.py lines 59-68), whose
computations are identical. -/
def production_plan_of (fc : List FcRow) : List PlanItem :=
  (groupKeys fc).map (fun k => ⟨k.1, k.2, rhe (groupDemand fc k * (23/20))⟩)

/-- One metrics block of the scenario report (the multiplier echo fields of
the scenario block are omitted: they are copies of the inputs). -/
structure MetricsBlock where
  total_demand : ℚ
  total_production : ℤ
  total_revenue : ℚ
  capacity : ℤ
  utilization_pct : ℚ
deriving DecidableEq, Repr

/-- The delta block of the scenario report. -/
structure DeltaBlock where
  demand_change : ℚ
  production_change : ℤ
  revenue_change : ℚ
  revenue_change_pct : ℚ
deriving DecidableEq, Repr

/-- The dict returned by ScenarioSimulator.run_scenario. -/
structure ScenarioResult where
  baseline : MetricsBlock
  scenario : MetricsBlock
  delta : DeltaBlock
deriving DecidableEq, Repr

/-- Step 1 of run_scenario: scale every predicted_demand by the demand
multiplier (line 54). -/
def scaled_forecast (forecast : List FcRow) (demand_multiplier : ℚ) : List FcRow :=
  forecast.map (fun r =>
    { r with predicted_demand := r.predicted_demand * demand_multiplier })

/-- Step 2 of run_scenario: the adjusted capacity
int(baseline_capacity * (1 + capacity_change_pct / 100)) (line 57). -/
def scenario_capacity_of (capacity_change_pct : ℚ) : ℤ :=
  pyInt ((TOTAL_CAPACITY : ℚ) * (1 + capacity_change_pct / 100))

/-- ScenarioSimulator.run_scenario over the persisted forecast, products
and production-plan tables. solverOk models the success of the inner LP
call; none models a Python-level exception (in the baseline merge or
propagated from optimise). -/
def run_scenario (forecast : List FcRow) (products : List Product)
    (production : List PlanItem)
    (demand_multiplier price_multiplier capacity_change_pct : ℚ)
    (solverOk : Bool) : Option ScenarioResult :=
  let baseline_demand := (forecast.map (·.predicted_demand)).sum
  match resolveCosts production products,
      optimise (production_plan_of (scaled_forecast forecast demand_multiplier)) products
        (scenario_capacity_of capacity_change_pct) solverOk with
  | some bcosts, some opt =>
    let baseline_revenue :=
      (List.zipWith (fun (it : PlanItem) (c : ℚ) =>
        (it.recommended_production_qty : ℚ) * c * (3/2)) production bcosts).sum
    let scenario_forecast := scaled_forecast forecast demand_multiplier
    let scenario_capacity := scenario_capacity_of capacity_change_pct
    let scenario_revenue :=
      (opt.rows.map (fun row => row.revenue_captured * price_multiplier)).sum
    let scenario_demand := (scenario_forecast.map (·.predicted_demand)).sum
    let scenario_production := (opt.rows.map (·.optimized_qty)).sum
    let baseline_production := (production.map (·.recommended_production_qty)).sum
    some
        { baseline :=
            { total_demand := roundTo 0 baseline_demand
              total_production := baseline_production
              total_revenue := roundTo 0 baseline_revenue
              capacity := TOTAL_CAPACITY
              utilization_pct :=
                roundTo 1 ((baseline_production : ℚ) / (TOTAL_CAPACITY : ℚ) * 100) }
          scenario :=
            { total_demand := roundTo 0 scenario_demand
              total_production := scenario_production
              total_revenue := roundTo 0 scenario_revenue
              capacity := scenario_capacity
              utilization_pct :=
                roundTo 1 ((scenario_production : ℚ) / ((max scenario_capacity 1 : ℤ) : ℚ) * 100) }
          delta :=
            { demand_change := roundTo 0 (scenario_demand - baseline_demand)
              production_change := scenario_production - baseline_production
              revenue_change := roundTo 0 (scenario_revenue - baseline_revenue)
              revenue_change_pct :=
                roundTo 1 ((scenario_revenue - baseline_revenue) / max baseline_revenue 1 * 100) } }
  | _, _ => none

/-! ### Scenario lemmas and claims C1, C3 -/

theorem run_scenario_eq (forecast : List FcRow) (products : List Product)
    (production : List PlanItem) (dm pm pct : ℚ) (ok : Bool)
    (bcosts : List ℚ) (hb : resolveCosts production products = some bcosts)
    (opt : OptResult)
    (hopt : optimise (production_plan_of (scaled_forecast forecast dm)) products
      (scenario_capacity_of pct) ok = some opt) :
    run_scenario forecast products production dm pm pct ok = some
      { baseline :=
          { total_demand := roundTo 0 ((forecast.map (·.predicted_demand)).sum)
            total_production := (production.map (·.recommended_production_qty)).sum
            total_revenue := roundTo 0 ((List.zipWith (fun (it : PlanItem) (c : ℚ) =>
              (it.recommended_production_qty : ℚ) * c * (3/2)) production bcosts).sum)
            capacity := TOTAL_CAPACITY
            utilization_pct := roundTo 1
              ((((production.map (·.recommended_production_qty)).sum : ℤ) : ℚ) /
                (TOTAL_CAPACITY : ℚ) * 100) }
        scenario :=
          { total_demand := roundTo 0 (((scaled_forecast forecast dm).map (·.predicted_demand)).sum)
            total_production := (opt.rows.map (·.optimized_qty)).sum
            total_revenue := roundTo 0 ((opt.rows.map (fun row => row.revenue_captured * pm)).sum)
            capacity := scenario_capacity_of pct
            utilization_pct := roundTo 1
              ((((opt.rows.map (·.optimized_qty)).sum : ℤ) : ℚ) /
                ((max (scenario_capacity_of pct) 1 : ℤ) : ℚ) * 100) }
        delta :=
          { demand_change := roundTo 0 (((scaled_forecast forecast dm).map (·.predicted_demand)).sum -
              (forecast.map (·.predicted_demand)).sum)
            production_change := (opt.rows.map (·.optimized_qty)).sum -
              (production.map (·.recommended_production_qty)).sum
            revenue_change := roundTo 0 ((opt.rows.map (fun row => row.revenue_captured * pm)).sum -
              (List.zipWith (fun (it : PlanItem) (c : ℚ) =>
                (it.recommended_production_qty : ℚ) * c * (3/2)) production bcosts).sum)
            revenue_change_pct := roundTo 1
              (((opt.rows.map (fun row => row.revenue_captured * pm)).sum -
                (List.zipWith (fun (it : PlanItem) (c : ℚ) =>
                  (it.recommended_production_qty : ℚ) * c * (3/2)) production bcosts).sum) /
                max ((List.zipWith (fun (it : PlanItem) (c : ℚ) =>
                  (it.recommended_production_qty : ℚ) * c * (3/2)) production bcosts).sum) 1 * 100) } } := by
  simp [run_scenario, hb, hopt]

theorem run_scenario_some_inv (forecast : List FcRow) (products : List Product)
    (production : List PlanItem) (dm pm pct : ℚ) (ok : Bool) (res : ScenarioResult)
    (h : run_scenario forecast products production dm pm pct ok = some res) :
    ∃ bcosts opt, resolveCosts production products = some bcosts ∧
      optimise (production_plan_of (scaled_forecast forecast dm)) products
        (scenario_capacity_of pct) ok = some opt := by
  cases hb : resolveCosts production products with
  | none =>
    rw [run_scenario] at h
    rw [hb] at h
    cases hopt : optimise (production_plan_of (scaled_forecast forecast dm)) products
        (scenario_capacity_of pct) ok with
    | none => rw [hopt] at h; exact absurd h (by simp)
    | some opt => rw [hopt] at h; exact absurd h (by simp)
  | some bcosts =>
    cases hopt : optimise (production_plan_of (scaled_forecast forecast dm)) products
        (scenario_capacity_of pct) ok with
    | none =>
      rw [run_scenario] at h
      rw [hb, hopt] at h
      exact absurd h (by simp)
    | some opt => exact ⟨bcosts, opt, rfl, rfl⟩

theorem scaled_forecast_one (forecast : List FcRow) : scaled_forecast forecast 1 = forecast := by
  unfold scaled_forecast
  have h1 : ∀ r : FcRow, ({ r with predicted_demand := r.predicted_demand * 1 }) = r := by
    intro r
    rw [mul_one]
  calc forecast.map (fun r => { r with predicted_demand := r.predicted_demand * 1 })
      = forecast.map id := List.map_congr_left (fun r _ => h1 r)
    _ = forecast := List.map_id forecast

theorem scenario_capacity_of_zero : scenario_capacity_of 0 = TOTAL_CAPACITY := by
  norm_num [scenario_capacity_of, pyInt, TOTAL_CAPACITY]

/-- Claim C1 (amended): the identity scenario (multipliers 1.0, 1.0 and
capacity change 0.0) reproduces all five baseline metrics exactly,
provided the persisted production plan matches the plan recomputed from
the persisted forecast and its total recommended quantity fits within the
baseline capacity. (Without the fit condition the scenario side is capped
by the optimizer while the baseline side is not: see the counterexample.) -/
theorem identity_scenario_reproduces_fitting_baseline
    (forecast : List FcRow) (products : List Product) (production : List PlanItem)
    (res : ScenarioResult)
    (hplan : production_plan_of forecast = production)
    (hfit : (production.map (·.recommended_production_qty)).sum ≤ TOTAL_CAPACITY)
    (h : run_scenario forecast products production 1 1 0 true = some res) :
    res.scenario.total_demand = res.baseline.total_demand ∧
    res.scenario.total_production = res.baseline.total_production ∧
    res.scenario.total_revenue = res.baseline.total_revenue ∧
    res.scenario.capacity = res.baseline.capacity ∧
    res.scenario.utilization_pct = res.baseline.utilization_pct := by
  obtain ⟨bcosts, opt, hb, hopt0⟩ :=
    run_scenario_some_inv forecast products production 1 1 0 true res h
  have hopt := hopt0
  rw [scaled_forecast_one, hplan, scenario_capacity_of_zero] at hopt
  have hTC : (TOTAL_CAPACITY : ℤ) ≠ 0 := by norm_num [TOTAL_CAPACITY]
  obtain ⟨-, hneg, -⟩ := optimise_some_inv production products TOTAL_CAPACITY true opt hopt
  have hpos := nonneg_of_any_neg_false production hneg
  have hq : optQty production TOTAL_CAPACITY true =
      production.map (·.recommended_production_qty) := by
    rw [optQty_true]
    refine intGreedy_of_sum_le _ _ ?_ hfit
    intro r hr
    obtain ⟨it, hit, rfl⟩ := List.mem_map.mp hr
    exact hpos it hit
  have hopt' := optimise_eq production products TOTAL_CAPACITY true hTC hneg bcosts hb
  have hoptv : opt =
      { rows := mkRows products production bcosts (production.map (·.recommended_production_qty))
        capacity_utilization_pct :=
          roundTo 1 ((((production.map (·.recommended_production_qty)).sum : ℤ) : ℚ) /
            (TOTAL_CAPACITY : ℚ) * 100)
        warning := !true } := by
    rw [hopt, hq] at hopt'
    exact Option.some.inj hopt'
  have hres := h.symm.trans (run_scenario_eq forecast products production 1 1 0 true bcosts hb
    opt hopt0)
  have hres' := Option.some.inj hres
  have hlen1 : production.length = bcosts.length :=
    (resolveCosts_length production products bcosts hb).symm
  have hlen2 : bcosts.length = (production.map (·.recommended_production_qty)).length := by
    rw [resolveCosts_length production products bcosts hb]
    simp
  have hrowsopt : (opt.rows.map (·.optimized_qty)).sum =
      (production.map (·.recommended_production_qty)).sum := by
    rw [hoptv]
    rw [mkRows_map_optimized products production bcosts _ hlen1 hlen2]
  have hrowsrev : (opt.rows.map (fun row => row.revenue_captured * 1)).sum =
      (List.zipWith (fun (it : PlanItem) (c : ℚ) =>
        (it.recommended_production_qty : ℚ) * c * (3/2)) production bcosts).sum := by
    have hmo : opt.rows.map (fun row => row.revenue_captured * 1) =
        opt.rows.map (·.revenue_captured) := by
      refine List.map_congr_left ?_
      intro row _
      rw [mul_one]
    rw [hmo, hoptv]
    rw [mkRows_map_revenue products production bcosts]
  rw [hres']
  refine ⟨?_, ?_, ?_, ?_, ?_⟩
  · rw [scaled_forecast_one]
  · exact hrowsopt
  · rw [hrowsrev]
  · exact scenario_capacity_of_zero
  · rw [hrowsopt, scenario_capacity_of_zero]
    norm_num [TOTAL_CAPACITY]

theorem c1_overfit_run :
    run_scenario [⟨0, 0, 0, 0, 100000⟩] [⟨0, Band.mid, 1⟩] [⟨0, 0, 115000⟩] 1 1 0 true = some
      { baseline := { total_demand := 100000, total_production := 115000,
                      total_revenue := 172500, capacity := 70000,
                      utilization_pct := 1643/10 }
        scenario := { total_demand := 100000, total_production := 70000,
                      total_revenue := 105000, capacity := 70000, utilization_pct := 100 }
        delta := { demand_change := 0, production_change := -45000,
                   revenue_change := -67500, revenue_change_pct := -391/10 } } := by
  norm_num [run_scenario, scaled_forecast, scenario_capacity_of, production_plan_of,
    groupKeys, dedupKeys, groupDemand, optimise, optQty, greedyFill, resolveCosts,
    sku_lookup, median, mkRows, resolveBand, MARGIN_MAP, roundTo, rhe, pyInt, TOTAL_CAPACITY]

/-- Claim C1 counterexample: a persisted state whose plan (consistent with
its forecast: 115000 = round(100000 x 1.15)) exceeds the 70000 baseline
capacity. The identity scenario re-runs the optimizer, which caps
production at 70000, while the baseline block reports the uncapped
persisted total 115000 — total_production, total_revenue and
utilization_pct all differ from the baseline. -/
theorem identity_scenario_differs_from_baseline :
    ∃ res, run_scenario [⟨0, 0, 0, 0, 100000⟩] [⟨0, Band.mid, 1⟩] [⟨0, 0, 115000⟩]
        1 1 0 true = some res ∧
      res.scenario.total_production ≠ res.baseline.total_production ∧
      res.scenario.total_revenue ≠ res.baseline.total_revenue ∧
      res.scenario.utilization_pct ≠ res.baseline.utilization_pct := by
  exact ⟨_, c1_overfit_run, by norm_num, by norm_num, by norm_num⟩

def c1FitResult : ScenarioResult :=
  { baseline := { total_demand := 100, total_production := 115,
                  total_revenue := 172, capacity := 70000, utilization_pct := 1/5 }
    scenario := { total_demand := 100, total_production := 115,
                  total_revenue := 172, capacity := 70000, utilization_pct := 1/5 }
    delta := { demand_change := 0, production_change := 0,
               revenue_change := 0, revenue_change_pct := 0 } }

theorem c1_fitting_run :
    run_scenario [⟨0, 0, 0, 0, 100⟩] [⟨0, Band.mid, 1⟩] [⟨0, 0, 115⟩] 1 1 0 true =
      some c1FitResult := by
  norm_num [run_scenario, scaled_forecast, scenario_capacity_of, production_plan_of,
    groupKeys, dedupKeys, groupDemand, optimise, optQty, greedyFill, resolveCosts,
    sku_lookup, median, mkRows, resolveBand, MARGIN_MAP, roundTo, rhe, pyInt, TOTAL_CAPACITY,
    c1FitResult]

/-- Witness for claim C1's theorem: a consistent persisted state fitting
within capacity (forecast demand 100, plan 115 = round(100 x 1.15)), on
which the identity scenario reproduces all five baseline metrics. -/
theorem identity_scenario_reproduces_fitting_baseline_witness :
    c1FitResult.scenario.total_demand = c1FitResult.baseline.total_demand ∧
    c1FitResult.scenario.total_production = c1FitResult.baseline.total_production ∧
    c1FitResult.scenario.total_revenue = c1FitResult.baseline.total_revenue ∧
    c1FitResult.scenario.capacity = c1FitResult.baseline.capacity ∧
    c1FitResult.scenario.utilization_pct = c1FitResult.baseline.utilization_pct := by
  refine identity_scenario_reproduces_fitting_baseline
    [⟨0, 0, 0, 0, 100⟩] [⟨0, Band.mid, 1⟩] [⟨0, 0, 115⟩] _ ?_ ?_ c1_fitting_run
  · norm_num [production_plan_of, groupKeys, dedupKeys, groupDemand, rhe]
  · norm_num [TOTAL_CAPACITY]

theorem run_scenario_capacity_field (forecast : List FcRow) (products : List Product)
    (production : List PlanItem) (dm pm pct : ℚ) (ok : Bool) (res : ScenarioResult)
    (h : run_scenario forecast products production dm pm pct ok = some res) :
    res.scenario.capacity = scenario_capacity_of pct := by
  obtain ⟨bcosts, opt, hb, hopt⟩ :=
    run_scenario_some_inv forecast products production dm pm pct ok res h
  have hres := Option.some.inj (h.symm.trans
    (run_scenario_eq forecast products production dm pm pct ok bcosts hb opt hopt))
  rw [hres]

/-- Claim C3 (amended): for every run_scenario call, the scenario capacity
equals the truncation int(baseline_capacity x (1 + pct/100)) — the floor,
since the factor is nonnegative for pct >= -100 — not the rounding; in the
particular case pct = 15 the product 70000 x 1.15 = 80500 is an integer,
so the capacity is 80500 as the claim states. -/
theorem run_scenario_capacity_truncates (forecast : List FcRow) (products : List Product)
    (production : List PlanItem) (dm pm pct : ℚ) (ok : Bool) (res : ScenarioResult)
    (hp : -100 ≤ pct)
    (h : run_scenario forecast products production dm pm pct ok = some res) :
    res.scenario.capacity = ⌊(TOTAL_CAPACITY : ℚ) * (1 + pct / 100)⌋ ∧
    (pct = 15 → res.scenario.capacity = 80500) := by
  have hcapf := run_scenario_capacity_field forecast products production dm pm pct ok res h
  have harg : (0 : ℚ) ≤ (TOTAL_CAPACITY : ℚ) * (1 + pct / 100) := by
    have h0 : (-100 : ℚ) * (1/100) ≤ pct * (1/100) := mul_le_mul_of_nonneg_right hp (by norm_num)
    have h1 : (0 : ℚ) ≤ 1 + pct / 100 := by
      have h2 : pct / 100 = pct * (1/100) := by ring
      rw [h2]
      linarith
    have h3 : (0 : ℚ) ≤ (TOTAL_CAPACITY : ℚ) := by norm_num [TOTAL_CAPACITY]
    exact mul_nonneg h3 h1
  have hfl : res.scenario.capacity = ⌊(TOTAL_CAPACITY : ℚ) * (1 + pct / 100)⌋ := by
    rw [hcapf, scenario_capacity_of, pyInt, if_pos harg]
  refine ⟨hfl, ?_⟩
  intro hpct
  rw [hfl, hpct]
  norm_num [TOTAL_CAPACITY]

theorem c3_truncating_run :
    run_scenario [] [] [] 1 1 (1/200) true = some
      { baseline := { total_demand := 0, total_production := 0, total_revenue := 0,
                      capacity := 70000, utilization_pct := 0 }
        scenario := { total_demand := 0, total_production := 0, total_revenue := 0,
                      capacity := 70003, utilization_pct := 0 }
        delta := { demand_change := 0, production_change := 0,
                   revenue_change := 0, revenue_change_pct := 0 } } := by
  norm_num [run_scenario, scaled_forecast, scenario_capacity_of, production_plan_of,
    groupKeys, dedupKeys, groupDemand, optimise, optQty, greedyFill, resolveCosts,
    sku_lookup, median, mkRows, resolveBand, MARGIN_MAP, roundTo, rhe, pyInt, TOTAL_CAPACITY]

/-- Claim C3 counterexample: with capacity_change_pct = 0.005 the product
is 70000 x 1.00005 = 70003.5; the code truncates (int) to 70003 while the
claimed rounding gives 70004 — the scenario capacity is not
round(baseline x (1 + pct/100)) on every call. -/
theorem run_scenario_capacity_not_round :
    ∃ res, run_scenario [] [] [] 1 1 (1/200) true = some res ∧
      res.scenario.capacity ≠ rhe ((TOTAL_CAPACITY : ℚ) * (1 + (1/200) / 100)) := by
  refine ⟨_, c3_truncating_run, ?_⟩
  norm_num [rhe, TOTAL_CAPACITY]

def c3Run15Result : ScenarioResult :=
  { baseline := { total_demand := 0, total_production := 0, total_revenue := 0,
                  capacity := 70000, utilization_pct := 0 }
    scenario := { total_demand := 0, total_production := 0, total_revenue := 0,
                  capacity := 80500, utilization_pct := 0 }
    delta := { demand_change := 0, production_change := 0,
               revenue_change := 0, revenue_change_pct := 0 } }

theorem c3_run15 :
    run_scenario [] [] [] 1 1 15 true = some c3Run15Result := by
  norm_num [run_scenario, scaled_forecast, scenario_capacity_of, production_plan_of,
    groupKeys, dedupKeys, groupDemand, optimise, optQty, greedyFill, resolveCosts,
    sku_lookup, median, mkRows, resolveBand, MARGIN_MAP, roundTo, rhe, pyInt, TOTAL_CAPACITY,
    c3Run15Result]

/-- Witness for claim C3's theorem: a run with capacity_change_pct = 15
whose scenario capacity is the floor of 70000 x 1.15, namely 80500. -/
theorem run_scenario_capacity_truncates_witness :
    c3Run15Result.scenario.capacity = ⌊(TOTAL_CAPACITY : ℚ) * (1 + (15 : ℚ) / 100)⌋ ∧
    c3Run15Result.scenario.capacity = 80500 := by
  have h := run_scenario_capacity_truncates [] [] [] 1 1 15 true c3Run15Result
    (by norm_num) c3_run15
  exact ⟨h.1, h.2 rfl⟩

/-! ## Forecaster confidence scoring (src/train_forecast.py) -/

/-- pandas Series.min of a nonempty column (0 for the empty column, which
the code never queries: the normalization block is guarded by
forecast_df.empty). -/
def listMin : List ℚ → ℚ
  | [] => 0
  | h :: t => t.foldl min h

/-- pandas Series.max of a nonempty column. -/
def listMax : List ℚ → ℚ
  | [] => 0
  | h :: t => t.foldl max h

/-- Min-max normalization of one uncertainty_raw value within the batch
us, with the constant 0.5 fallback when the batch has no variation
(lines 263-270 of train_forecast.py). -/
def uncertainty_norm (us : List ℚ) (u : ℚ) : ℚ :=
  if listMin us < listMax us then (u - listMin us) / (listMax us - listMin us) else 1/2

/-- The confidence_score of one row: 0.95 - norm * (0.95 - 0.30), rounded
to 2 decimals (lines 275-278 of train_forecast.py). -/
def confidence_score (us : List ℚ) (u : ℚ) : ℚ :=
  roundTo 2 (19/20 - uncertainty_norm us u * (19/20 - 3/10))

/-- The confidence_score column of the forecast batch whose
uncertainty_raw column is us. -/
def confidence_scores (us : List ℚ) : List ℚ := us.map (confidence_score us)

theorem foldl_min_le_init (t : List ℚ) (a : ℚ) : t.foldl min a ≤ a := by
  induction t generalizing a with
  | nil => exact le_rfl
  | cons h t ih => exact le_trans (ih (min a h)) (min_le_left a h)

theorem foldl_min_le_mem (t : List ℚ) (a x : ℚ) (hx : x ∈ t) : t.foldl min a ≤ x := by
  induction t generalizing a with
  | nil => cases hx
  | cons h t ih =>
    rcases List.mem_cons.mp hx with rfl | hx
    · exact le_trans (foldl_min_le_init t (min a x)) (min_le_right a x)
    · exact ih (min a h) hx

theorem listMin_le (us : List ℚ) (u : ℚ) (hu : u ∈ us) : listMin us ≤ u := by
  cases us with
  | nil => cases hu
  | cons h t =>
    rcases List.mem_cons.mp hu with rfl | hu
    · exact foldl_min_le_init t u
    · exact foldl_min_le_mem t h u hu

theorem init_le_foldl_max (t : List ℚ) (a : ℚ) : a ≤ t.foldl max a := by
  induction t generalizing a with
  | nil => exact le_rfl
  | cons h t ih => exact le_trans (le_max_left a h) (ih (max a h))

theorem mem_le_foldl_max (t : List ℚ) (a x : ℚ) (hx : x ∈ t) : x ≤ t.foldl max a := by
  induction t generalizing a with
  | nil => cases hx
  | cons h t ih =>
    rcases List.mem_cons.mp hx with rfl | hx
    · exact le_trans (le_max_right a x) (init_le_foldl_max t (max a x))
    · exact ih (max a h) hx

theorem le_listMax (us : List ℚ) (u : ℚ) (hu : u ∈ us) : u ≤ listMax us := by
  cases us with
  | nil => cases hu
  | cons h t =>
    rcases List.mem_cons.mp hu with rfl | hu
    · exact init_le_foldl_max t u
    · exact mem_le_foldl_max t h u hu

theorem foldl_min_const (t : List ℚ) (a : ℚ) (h : ∀ x ∈ t, x = a) : t.foldl min a = a := by
  induction t with
  | nil => rfl
  | cons x t ih =>
    have hx : x = a := h x (by simp)
    subst hx
    simpa [min_self x] using ih (fun y hy => h y (by simp [hy]))

theorem foldl_max_const (t : List ℚ) (a : ℚ) (h : ∀ x ∈ t, x = a) : t.foldl max a = a := by
  induction t with
  | nil => rfl
  | cons x t ih =>
    have hx : x = a := h x (by simp)
    subst hx
    simpa [max_self x] using ih (fun y hy => h y (by simp [hy]))

theorem roundTo_le_of_le_int (k : ℕ) (q : ℚ) (n : ℤ) (h : q * 10 ^ k ≤ (n : ℚ)) :
    roundTo k q ≤ (n : ℚ) / 10 ^ k := by
  unfold roundTo
  have h2 : (rhe (q * 10 ^ k) : ℚ) ≤ (n : ℚ) := by exact_mod_cast rhe_le_of_le h
  have hp : (0 : ℚ) < 10 ^ k := by positivity
  exact div_le_div_of_nonneg_right h2 hp.le |>.trans_eq rfl

theorem le_roundTo_of_int_le (k : ℕ) (q : ℚ) (n : ℤ) (h : (n : ℚ) ≤ q * 10 ^ k) :
    (n : ℚ) / 10 ^ k ≤ roundTo k q := by
  unfold roundTo
  have h2 : (n : ℚ) ≤ (rhe (q * 10 ^ k) : ℚ) := by exact_mod_cast le_rhe_of_le h
  have hp : (0 : ℚ) < 10 ^ k := by positivity
  exact div_le_div_of_nonneg_right h2 hp.le |>.trans_eq rfl

/-- Claim C6 (amended): every confidence_score equals
0.95 - normalized_uncertainty x 0.65 rounded half-to-even to 2 decimals
and lies in [0.30, 0.95]; a batch with no variation in uncertainty_ratio
gets normalized uncertainty 0.5 and hence confidence 0.62 on every row
(round-half-even of 0.625, not 0.625 itself as the claim states). -/
theorem confidence_score_formula_bounds_degenerate (us : List ℚ) (u : ℚ) (hu : u ∈ us) :
    confidence_score us u = roundTo 2 (19/20 - uncertainty_norm us u * (19/20 - 3/10)) ∧
    3/10 ≤ confidence_score us u ∧ confidence_score us u ≤ 19/20 ∧
    ((∀ x ∈ us, ∀ y ∈ us, x = y) → confidence_score us u = 31/50) := by
  have ht : 0 ≤ uncertainty_norm us u ∧ uncertainty_norm us u ≤ 1 := by
    unfold uncertainty_norm
    split
    · next hlt =>
      constructor
      · exact div_nonneg (by linarith [listMin_le us u hu]) (by linarith)
      · rw [div_le_one (by linarith)]
        linarith [le_listMax us u hu]
    · norm_num
  have hraw1 : 3/10 ≤ 19/20 - uncertainty_norm us u * (19/20 - 3/10) := by nlinarith [ht.1, ht.2]
  have hraw2 : 19/20 - uncertainty_norm us u * (19/20 - 3/10) ≤ 19/20 := by nlinarith [ht.1, ht.2]
  refine ⟨rfl, ?_, ?_, ?_⟩
  · have := le_roundTo_of_int_le 2 (19/20 - uncertainty_norm us u * (19/20 - 3/10)) 30
      (by push_cast; nlinarith)
    unfold confidence_score
    calc (3/10 : ℚ) = ((30 : ℤ) : ℚ) / 10 ^ 2 := by norm_num
    _ ≤ _ := this
  · have := roundTo_le_of_le_int 2 (19/20 - uncertainty_norm us u * (19/20 - 3/10)) 95
      (by push_cast; nlinarith)
    unfold confidence_score
    calc roundTo 2 (19/20 - uncertainty_norm us u * (19/20 - 3/10))
        ≤ ((95 : ℤ) : ℚ) / 10 ^ 2 := this
    _ = 19/20 := by norm_num
  · intro hconst
    have hmm : ¬ (listMin us < listMax us) := by
      cases us with
      | nil => cases hu
      | cons h t =>
        have hth : ∀ x ∈ t, x = h := fun x hx =>
          hconst x (by simp [hx]) h (by simp)
        have h1 : listMin (h :: t) = h := foldl_min_const t h hth
        have h2 : listMax (h :: t) = h := foldl_max_const t h hth
        rw [h1, h2]
        exact lt_irrefl h
    unfold confidence_score uncertainty_norm
    rw [if_neg hmm]
    norm_num [roundTo, rhe]

/-- Claim C6 counterexample: the degenerate batch [1, 1] (all equal
uncertainty) yields confidence_score 0.62 on every row, not 0.625: pandas
round(2) cannot return a 3-decimal value, and round-half-even sends 0.625
to 0.62. -/
theorem confidence_scores_degenerate_not_0625 :
    confidence_scores [1, 1] = [31/50, 31/50] ∧ (31/50 : ℚ) ≠ 5/8 := by
  constructor
  · norm_num [confidence_scores, confidence_score, uncertainty_norm, listMin, listMax,
      roundTo, rhe]
  · norm_num

/-- Witness for claim C6's theorem: in the batch [1/2, 1] the row with
uncertainty 1 gets normalized uncertainty 1 and confidence 0.30, inside
the claimed bounds. -/
theorem confidence_score_formula_bounds_degenerate_witness :
    3/10 ≤ confidence_score [1/2, 1] 1 ∧ confidence_score [1/2, 1] 1 ≤ 19/20 := by
  have h := confidence_score_formula_bounds_degenerate [1/2, 1] 1 (by norm_num)
  exact ⟨h.2.1, h.2.2.1⟩

/-! ## Forecaster residual-std fallback (src/train_forecast.py lines 139-144, 230-231)

The code stores standard deviations: the per-series map holds
pandas std (sample standard deviation, ddof = 1, NaN for a single point)
filled with the validation RMSE, and lookups fall back to
numpy std of all residuals (population standard deviation, ddof = 0).
Every one of these is the square root of a rational statistic of the
residuals, and the square-root function is injective and monotone on
nonnegative reals, so two of the stored sigmas are equal iff the rational
statistics under the roots are equal. The definitions below model those
squared statistics exactly; every comparison theorem about them transfers
verbatim to the sigmas of the code. -/

/-- The distinct series ids of the validation residual table, in
first-occurrence order. -/
def series_keys (data : List (ℕ × ℚ)) : List ℕ := dedupKeys (data.map (·.1))

/-- The residuals of one series (groupby('series_id') group). -/
def residuals_of (data : List (ℕ × ℚ)) (k : ℕ) : List ℚ :=
  (data.filter (fun p => p.1 == k)).map (·.2)

/-- Arithmetic mean of a list (0 for the empty list, never queried). -/
def mean (xs : List ℚ) : ℚ := xs.sum / xs.length

/-- Square of the pandas sample standard deviation (ddof = 1): none models
the NaN produced for fewer than two points. -/
def sampleVar (xs : List ℚ) : Option ℚ :=
  if xs.length < 2 then none
  else some ((xs.map (fun x => (x - mean xs) ^ 2)).sum / ((xs.length : ℚ) - 1))

/-- Square of the numpy population standard deviation (ddof = 0), the
global_residual_std of line 144. -/
def popVar (xs : List ℚ) : ℚ := (xs.map (fun x => (x - mean xs) ^ 2)).sum / xs.length

/-- Square of the validation RMSE (sqrt of the mean squared residual),
the fill value of line 142. -/
def meanSq (xs : List ℚ) : ℚ := (xs.map (fun x => x ^ 2)).sum / xs.length

/-- The residual_std_map of line 142-143, at the squared level:
series_std = groupby('series_id').std().fillna(rmse). -/
def residual_var_map (data : List (ℕ × ℚ)) : List (ℕ × ℚ) :=
  (series_keys data).map (fun k =>
    (k, (sampleVar (residuals_of data k)).getD (meanSq (data.map (·.2)))))

/-- The sigma-squared actually used for a series by the confidence
computation: residual_std_map.get(series_key, global_residual_std)
(line 231). -/
def used_var (data : List (ℕ × ℚ)) (k : ℕ) : ℚ :=
  (((residual_var_map data).find? (fun p => p.1 == k)).map (·.2)).getD
    (popVar (data.map (·.2)))

theorem mem_dedupKeys {α : Type} [DecidableEq α] (l : List α) (x : α) :
    x ∈ dedupKeys l ↔ x ∈ l := by
  induction l with
  | nil => simp [dedupKeys]
  | cons k rest ih =>
    simp only [dedupKeys, List.mem_cons, List.mem_filter, ih]
    by_cases hx : x = k
    · simp [hx]
    · simp [hx]

theorem find?_map_keys {β : Type} (f : ℕ → β) (keys : List ℕ) (k : ℕ) (hk : k ∈ keys) :
    ((keys.map (fun x => (x, f x))).find? (fun p => p.1 == k)) = some (k, f k) := by
  induction keys with
  | nil => cases hk
  | cons x keys ih =>
    rw [List.map_cons]
    by_cases hxk : x = k
    · subst hxk
      rw [List.find?_cons_of_pos _ (by simp)]
    · have hk' : k ∈ keys := by
        rcases List.mem_cons.mp hk with h | h
        · exact absurd h.symm hxk
        · exact h
      rw [List.find?_cons_of_neg _ (by simp [hxk])]
      exact ih hk'

/-- Claim C5 (amended): a series absent from the validation residual table
falls back to the global (population) residual standard deviation, but a
series present with too few points (an undefined sample std) is filled
with the validation RMSE instead, not with the global residual std.
Stated on the squared statistics, which determine the sigmas uniquely. -/
theorem used_var_fallbacks (data : List (ℕ × ℚ)) (k : ℕ) :
    (k ∉ data.map (·.1) → used_var data k = popVar (data.map (·.2))) ∧
    (k ∈ data.map (·.1) → (residuals_of data k).length < 2 →
      used_var data k = meanSq (data.map (·.2))) := by
  constructor
  · intro hk
    unfold used_var
    have hnone : (residual_var_map data).find? (fun p => p.1 == k) = none := by
      rw [List.find?_eq_none]
      intro p hp
      unfold residual_var_map at hp
      obtain ⟨x, hx, rfl⟩ := List.mem_map.mp hp
      have hxk : x ∈ data.map (·.1) := (mem_dedupKeys _ _).mp hx
      simp only [beq_iff_eq]
      intro hEq
      exact hk (hEq ▸ hxk)
    rw [hnone]
    rfl
  · intro hk hlen
    unfold used_var residual_var_map series_keys
    have hk' : k ∈ dedupKeys (data.map (·.1)) := (mem_dedupKeys _ _).mpr hk
    rw [find?_map_keys _ _ k hk']
    simp [sampleVar, hlen]

/-- Claim C5 counterexample: with validation residuals 3 (series 0, one
point) and 1, -1 (series 1), series 0 has an undefined sample std, and
the sigma-squared used for it is the squared RMSE 11/3, while the squared
global residual std is 8/3 — the code falls back to the RMSE, not to the
global residual standard deviation. -/
theorem series_fallback_uses_rmse_not_global :
    used_var [(0, 3), (1, 1), (1, -1)] 0 = 11/3 ∧
    popVar (([(0, 3), (1, 1), (1, -1)] : List (ℕ × ℚ)).map (·.2)) = 8/3 ∧
    (11/3 : ℚ) ≠ 8/3 := by
  refine ⟨?_, ?_, by norm_num⟩
  · norm_num [used_var, residual_var_map, series_keys, dedupKeys, residuals_of,
      sampleVar, mean, meanSq, popVar, List.find?]
  · norm_num [popVar, mean]

/-- Witness for claim C5's theorem: series 3 is absent from the
one-series residual table [(7, 5)], so the used sigma-squared is the
global population variance, here 0. -/
theorem used_var_fallbacks_witness : used_var [(7, 5)] 3 = 0 := by
  have h := (used_var_fallbacks [(7, 5)] 3).1 (by norm_num)
  rw [h]
  norm_num [popVar, mean]

/-! ## Cold-start neighbor query (src/unseen_sku_predictor.py) -/

/-- Comparison of (index, distance) pairs by distance; sklearn orders
ties by index, which insertion sort's stability reproduces. -/
def distLE (a b : ℕ × ℚ) : Prop := a.2 ≤ b.2

instance : DecidableRel distLE := fun a b => inferInstanceAs (Decidable (a.2 ≤ b.2))

instance : IsTotal (ℕ × ℚ) distLE := ⟨fun a b => le_total a.2 b.2⟩

instance : IsTrans (ℕ × ℚ) distLE := ⟨fun _ _ _ => le_trans⟩

/-- sklearn NearestNeighbors.kneighbors over the precomputed cosine
distances from the query point to each of the fitted catalog points (the
distances enter as data: they involve square roots of one-hot vector
norms, of which the ranking logic only ever uses the ordering): returns
the n_neighbors nearest (index, distance) pairs sorted ascending by
distance, or fails (sklearn raises ValueError) when n_neighbors exceeds
the number of fitted samples. -/
def kneighbors (dists : List ℚ) (n_neighbors : ℕ) : Option (List (ℕ × ℚ)) :=
  if n_neighbors ≤ dists.length then
    some ((dists.enum.insertionSort distLE).take n_neighbors)
  else none

/-- UnseenSKUPredictor.fit: the fitted default neighbor count
k = min(5, len(products)) (line 65). -/
def fitK (catalog_size : ℕ) : ℕ := min 5 catalog_size

/-- UnseenSKUPredictor.get_similar_skus: calls kneighbors with the
explicit default n = 5 (line 144), overriding the fitted k. -/
def get_similar_skus (dists : List ℚ) : Option (List (ℕ × ℚ)) := kneighbors dists 5

/-- The neighbor query inside predict_new_sku_demand (line 97), which
uses the fitted default k = min(5, catalog size). -/
def predict_neighbors (dists : List ℚ) : Option (List (ℕ × ℚ)) :=
  kneighbors dists (fitK dists.length)

theorem kneighbors_spec (dists : List ℚ) (n : ℕ) (hn : n ≤ dists.length) :
    ∃ l, kneighbors dists n = some l ∧ l.length = min n dists.length ∧
      l.Sorted distLE := by
  refine ⟨_, by rw [kneighbors, if_pos hn], ?_, ?_⟩
  · rw [List.length_take, List.length_insertionSort, List.enum_length]
  · exact (List.sorted_insertionSort distLE dists.enum).sublist (List.take_sublist n _)

/-- Claim C7 (amended): the similar-products query get_similar_skus
passes n = 5 explicitly, so for a catalog of size c it returns exactly
min(5, c) = 5 neighbors sorted ascending by distance only when c >= 5;
for c < 5 the sklearn call raises instead of returning min(5, c)
neighbors. The internal query of predict_new_sku_demand uses the fitted
k = min(5, c) and returns exactly min(5, c) sorted neighbors for every
catalog. -/
theorem similar_skus_counts_and_sortedness :
    (∀ dists : List ℚ, 5 ≤ dists.length →
      ∃ l, get_similar_skus dists = some l ∧ l.length = min 5 dists.length ∧
        l.Sorted distLE) ∧
    (∀ dists : List ℚ,
      ∃ l, predict_neighbors dists = some l ∧ l.length = min 5 dists.length ∧
        l.Sorted distLE) := by
  constructor
  · intro dists h5
    exact kneighbors_spec dists 5 h5
  · intro dists
    have h := kneighbors_spec dists (fitK dists.length) (min_le_right 5 dists.length)
    obtain ⟨l, hl, hlen, hsort⟩ := h
    refine ⟨l, hl, ?_, hsort⟩
    rw [hlen, fitK]
    rw [min_assoc, min_self]

/-- Claim C7 counterexample: on a single-product catalog the query
requests 5 > 1 neighbors and fails — it does not return
min(5, 1) = 1 neighbors as claimed. -/
theorem get_similar_skus_small_catalog_fails :
    get_similar_skus [0] = none ∧ min 5 ([(0 : ℚ)] : List ℚ).length = 1 := by
  constructor
  · norm_num [get_similar_skus, kneighbors]
  · norm_num

/-- Witness for claim C7's theorem: a five-product catalog, on which the
query returns exactly five neighbors sorted ascending. -/
theorem similar_skus_counts_and_sortedness_witness :
    ((get_similar_skus [3, 1, 2, 0, 4]).getD []).length = 5 ∧
    ((get_similar_skus [3, 1, 2, 0, 4]).getD []).Sorted distLE := by
  obtain ⟨l, hl, hlen, hsort⟩ :=
    similar_skus_counts_and_sortedness.1 [3, 1, 2, 0, 4] (by norm_num)
  rw [hl]
  exact ⟨by simpa using hlen, hsort⟩

/-! ## Recommendation engine: stock-out risk (src/recommendation_engine.py) -/

/-- A store-level aggregated demand row (the store_demand frame of
aggregate_forecast, line 45). -/
structure StoreDemandRow where
  store_id : ℕ
  sku_id : ℕ
  power_cluster : ℕ
  store_predicted_demand : ℚ
deriving DecidableEq, Repr

/-- An inventory row (inventory.csv); stock levels are unique per
(store_id, sku_id) as generated. -/
structure InventoryRow where
  store_id : ℕ
  sku_id : ℕ
  stock_level : ℚ
deriving DecidableEq, Repr

/-- A stock_risk row (stock_risk.csv; the city column, merged from the
stores table, carries no numeric content and is omitted). -/
structure StockRiskRow where
  store_id : ℕ
  sku_id : ℕ
  power_cluster : ℕ
  store_predicted_demand : ℚ
  stock_level : ℚ
  shortage_units : ℚ
  risk_probability : ℚ
deriving DecidableEq, Repr

/-- One row of detect_stockout_risks before the shortage filter: the
left-joined stock level (missing -> 0, line 114), the clipped-and-rounded
shortage (lines 117-119), and the clipped-and-rounded risk probability
(lines 123-125). -/
def mkRiskRow (inventory : List InventoryRow) (r : StoreDemandRow) : StockRiskRow :=
  let stock := ((inventory.find? (fun i =>
    i.store_id == r.store_id && i.sku_id == r.sku_id)).map (·.stock_level)).getD 0
  let shortage := roundTo 2 (max (r.store_predicted_demand - stock) 0)
  let risk := roundTo 2 (min (shortage / (r.store_predicted_demand + 1/1000)) 1)
  ⟨r.store_id, r.sku_id, r.power_cluster, r.store_predicted_demand, stock, shortage, risk⟩

/-- ManufacturingRecommendationEngine.detect_stockout_risks: build the
risk rows and retain those with shortage_units > 0 (line 141). -/
def detect_stockout_risks (store_demand : List StoreDemandRow)
    (inventory : List InventoryRow) : List StockRiskRow :=
  (store_demand.map (mkRiskRow inventory)).filter
    (fun row => decide (0 < row.shortage_units))

theorem roundTo_nonneg {k : ℕ} {q : ℚ} (h : 0 ≤ q) : 0 ≤ roundTo k q := by
  have h0 : ((0 : ℤ) : ℚ) ≤ q * 10 ^ k := by
    push_cast
    positivity
  have := le_roundTo_of_int_le k q 0 h0
  simpa using this

/-- Claim C8 (amended): every retained stock-risk row has
shortage = round(max(0, demand - stock), 2) and
risk_probability = round(min(shortage / (demand + 0.001), 1), 2) — the
clipped values rounded to 2 decimals, which equal the exact clipped
values only when those have at most 2 decimals; for nonnegative demand
the risk probability lies in [0, 1]; and a computed row is retained iff
its (rounded) shortage is strictly positive. -/
theorem stock_risk_rows_formulas_bounds_filter (store_demand : List StoreDemandRow)
    (inventory : List InventoryRow) :
    (∀ row ∈ detect_stockout_risks store_demand inventory,
      row.shortage_units = roundTo 2 (max (row.store_predicted_demand - row.stock_level) 0) ∧
      row.risk_probability = roundTo 2
        (min (row.shortage_units / (row.store_predicted_demand + 1/1000)) 1) ∧
      (0 ≤ row.store_predicted_demand →
        0 ≤ row.risk_probability ∧ row.risk_probability ≤ 1) ∧
      0 < row.shortage_units) ∧
    (∀ r ∈ store_demand, 0 < (mkRiskRow inventory r).shortage_units →
      mkRiskRow inventory r ∈ detect_stockout_risks store_demand inventory) := by
  constructor
  · intro row hrow
    obtain ⟨hmem, hpos⟩ := List.mem_filter.mp hrow
    obtain ⟨r, hr, hrr⟩ := List.mem_map.mp hmem
    have hposq : 0 < row.shortage_units := of_decide_eq_true hpos
    subst hrr
    refine ⟨rfl, rfl, ?_, hposq⟩
    intro hdem
    have hsh : 0 ≤ (mkRiskRow inventory r).shortage_units := le_of_lt hposq
    have hdem2 : 0 ≤ r.store_predicted_demand := hdem
    have hden : 0 < r.store_predicted_demand + 1/1000 := by linarith
    have hratio : 0 ≤ min ((mkRiskRow inventory r).shortage_units /
        (r.store_predicted_demand + 1/1000)) 1 :=
      le_min (div_nonneg hsh hden.le) (by norm_num)
    constructor
    · exact roundTo_nonneg hratio
    · have hle : min ((mkRiskRow inventory r).shortage_units /
          (r.store_predicted_demand + 1/1000)) 1 ≤ 1 := min_le_right _ _
      have := roundTo_le_of_le_int 2 (min ((mkRiskRow inventory r).shortage_units /
        (r.store_predicted_demand + 1/1000)) 1) 100 (by push_cast; nlinarith)
      calc (mkRiskRow inventory r).risk_probability
          ≤ ((100 : ℤ) : ℚ) / 10 ^ 2 := this
      _ = 1 := by norm_num
  · intro r hr hpos
    refine List.mem_filter.mpr ⟨List.mem_map.mpr ⟨r, hr, rfl⟩, ?_⟩
    exact decide_eq_true hpos

/-- Claim C8 counterexample: a store with demand 10 and stock 0 is
retained with shortage 10, and its stored risk_probability is 1.00 — the
rounded value of 10/10.001 — whereas the claimed exact clipped ratio
clip(shortage/(demand + eps), 0, 1) = 10/10.001 is strictly below 1, so
the stored value does not equal the claimed formula exactly. -/
theorem stock_risk_probability_is_rounded :
    detect_stockout_risks [⟨1, 1, 1, 10⟩] [⟨1, 1, 0⟩] =
      [⟨1, 1, 1, 10, 0, 10, 1⟩] ∧
    min ((10 : ℚ) / (10 + 1/1000)) 1 ≠ 1 := by
  constructor
  · norm_num [detect_stockout_risks, mkRiskRow, List.find?, roundTo, rhe]
  · norm_num

/-- Witness for claim C8's theorem: the single demand row (store 1,
sku 1, demand 10) with stock 0 is retained as the row
(shortage 10, risk 1.00), and its risk probability lies in [0, 1]. -/
theorem stock_risk_rows_formulas_bounds_filter_witness :
    0 ≤ (StockRiskRow.mk 1 1 1 10 0 10 1).risk_probability ∧
    (StockRiskRow.mk 1 1 1 10 0 10 1).risk_probability ≤ 1 := by
  have hmem : StockRiskRow.mk 1 1 1 10 0 10 1 ∈
      detect_stockout_risks [⟨1, 1, 1, 10⟩] [⟨1, 1, 0⟩] := by
    norm_num [detect_stockout_risks, mkRiskRow, List.find?, roundTo, rhe]
  have h := ((stock_risk_rows_formulas_bounds_filter [⟨1, 1, 1, 10⟩] [⟨1, 1, 0⟩]).1
    _ hmem).2.2.1
  exact h (by norm_num)

/-! ## Recommendation engine: inventory allocation
(allocate_inventory, recommendation_engine.py lines 66-100) -/

/-- An allocation_plan row. allocated_units is none when the pandas
value is non-finite (the 0/0 proportion of a zero-demand group), in
which case the astype(int) of line 92 raises and the allocation step
fails. -/
structure AllocationRow where
  city : ℕ
  sku_id : ℕ
  power_cluster : ℕ
  allocated_units : Option ℤ
deriving DecidableEq, Repr

/-- groupby(['city','sku_id','power_cluster']) keys of a forecast. -/
def cityKeys (fc : List FcRow) : List (ℕ × ℕ × ℕ) :=
  dedupKeys (fc.map (fun r => (r.city, r.sku_id, r.power_cluster)))

/-- The city_predicted_demand of one (city, sku, power) group. -/
def cityDemand (fc : List FcRow) (k : ℕ × ℕ × ℕ) : ℚ :=
  ((fc.filter (fun r =>
    r.city == k.1 && r.sku_id == k.2.1 && r.power_cluster == k.2.2)).map
    (·.predicted_demand)).sum

/-- ManufacturingRecommendationEngine.allocate_inventory, run as in the
pipeline on the production plan generated from the same forecast: the
allocation proportion city_demand / total_demand (computed with no
epsilon guard, line 79) times the group's recommended quantity
round(total x 1.15), rounded to int. A group with zero total demand
produces a non-finite proportion and hence a none (failing) unit
count. -/
def allocate_inventory (fc : List FcRow) : List AllocationRow :=
  (cityKeys fc).map (fun k =>
    let total := groupDemand fc (k.2.1, k.2.2)
    let rec_qty := rhe (total * (23/20))
    if total = 0 then ⟨k.1, k.2.1, k.2.2, none⟩
    else ⟨k.1, k.2.1, k.2.2, some (rhe (cityDemand fc k / total * (rec_qty : ℚ)))⟩)

theorem sum_filter_le_sum_filter (l : List FcRow) (p q : FcRow → Bool)
    (himp : ∀ r, p r = true → q r = true)
    (hnn : ∀ r ∈ l, 0 ≤ r.predicted_demand) :
    ((l.filter p).map (·.predicted_demand)).sum ≤
      ((l.filter q).map (·.predicted_demand)).sum := by
  induction l with
  | nil => simp
  | cons r l ih =>
    have ihl := ih (fun x hx => hnn x (by simp [hx]))
    have hd : 0 ≤ r.predicted_demand := hnn r (by simp)
    by_cases hp : p r = true
    · have hqt : q r = true := himp r hp
      simp only [List.filter_cons, hp, hqt, if_true, List.map_cons, List.sum_cons]
      linarith
    · have hp2 : p r = false := by simpa using hp
      by_cases hq : q r = true
      · simp only [List.filter_cons, hp2, hq, if_true, Bool.false_eq_true, if_false,
          List.map_cons, List.sum_cons]
        linarith
      · have hq2 : q r = false := by simpa using hq
        simpa [List.filter_cons, hp2, hq2] using ihl

theorem cityDemand_le_groupDemand (fc : List FcRow) (k : ℕ × ℕ × ℕ)
    (hnn : ∀ r ∈ fc, 0 ≤ r.predicted_demand) :
    cityDemand fc k ≤ groupDemand fc (k.2.1, k.2.2) := by
  refine sum_filter_le_sum_filter fc _ _ ?_ hnn
  intro r h
  simp only [Bool.and_eq_true] at h ⊢
  exact ⟨h.1.2, h.2⟩

theorem cityDemand_nonneg (fc : List FcRow) (k : ℕ × ℕ × ℕ)
    (hnn : ∀ r ∈ fc, 0 ≤ r.predicted_demand) : 0 ≤ cityDemand fc k := by
  refine List.sum_nonneg ?_
  intro x hx
  obtain ⟨r, hr, rfl⟩ := List.mem_map.mp hx
  exact hnn r (List.mem_filter.mp hr).1

/-- Claim C10: the allocation step is total only when every
(sku, power) group present has strictly positive total forecast demand:
under that precondition (and nonnegative demands) every allocated_units
is a well-defined integer between 0 and the group's recommended
quantity; and on a forecast containing a zero-demand group the
proportion is non-finite and the integer conversion fails. -/
theorem allocate_inventory_totality_and_bounds :
    (∀ fc : List FcRow, (∀ r ∈ fc, 0 ≤ r.predicted_demand) →
      (∀ k ∈ cityKeys fc, 0 < groupDemand fc (k.2.1, k.2.2)) →
      ∀ row ∈ allocate_inventory fc, ∃ u, row.allocated_units = some u ∧
        0 ≤ u ∧ u ≤ rhe (groupDemand fc (row.sku_id, row.power_cluster) * (23/20))) ∧
    (∃ row ∈ allocate_inventory [⟨0, 0, 0, 0, 0⟩], row.allocated_units = none) := by
  constructor
  · intro fc hnn hpos row hrow
    obtain ⟨k, hk, hrowk⟩ := List.mem_map.mp hrow
    have htot : 0 < groupDemand fc (k.2.1, k.2.2) := hpos k hk
    rw [if_neg (ne_of_gt htot)] at hrowk
    subst hrowk
    have hrq : (0 : ℤ) ≤ rhe (groupDemand fc (k.2.1, k.2.2) * (23/20)) :=
      rhe_nonneg (by positivity)
    have hcd0 : 0 ≤ cityDemand fc k := cityDemand_nonneg fc k hnn
    have hcdle : cityDemand fc k ≤ groupDemand fc (k.2.1, k.2.2) :=
      cityDemand_le_groupDemand fc k hnn
    have hprop0 : 0 ≤ cityDemand fc k / groupDemand fc (k.2.1, k.2.2) :=
      div_nonneg hcd0 htot.le
    have hprop1 : cityDemand fc k / groupDemand fc (k.2.1, k.2.2) ≤ 1 :=
      (div_le_one htot).mpr hcdle
    refine ⟨_, rfl, ?_, ?_⟩
    · refine le_rhe_of_le ?_
      push_cast
      exact mul_nonneg hprop0 (by exact_mod_cast hrq)
    · refine rhe_le_of_le ?_
      exact mul_le_of_le_one_left (by exact_mod_cast hrq) hprop1
  · refine ⟨⟨0, 0, 0, none⟩, ?_, rfl⟩
    norm_num [allocate_inventory, cityKeys, dedupKeys, groupDemand, cityDemand]

/-- Witness for claim C10's theorem: the one-row forecast (city 0, sku 0,
power 0, demand 2) has group total 2 > 0, and its single allocation row
gets the well-defined unit count 2 within [0, recommended]. -/
theorem allocate_inventory_totality_and_bounds_witness :
    (AllocationRow.mk 0 0 0 (some 2)).allocated_units = some 2 ∧
    (0 : ℤ) ≤ 2 ∧
    (2 : ℤ) ≤ rhe (groupDemand [⟨0, 0, 0, 0, 2⟩]
      ((AllocationRow.mk 0 0 0 (some 2)).sku_id,
       (AllocationRow.mk 0 0 0 (some 2)).power_cluster) * (23/20)) := by
  have hkeys : cityKeys [⟨0, 0, 0, 0, 2⟩] = [(0, 0, 0)] := by
    norm_num [cityKeys, dedupKeys]
  have hg : groupDemand [⟨0, 0, 0, 0, 2⟩] (0, 0) = 2 := by
    norm_num [groupDemand]
  have hc : cityDemand [⟨0, 0, 0, 0, 2⟩] (0, 0, 0) = 2 := by
    norm_num [cityDemand]
  have h1 : rhe ((2 : ℚ) * (23/20)) = 2 := by norm_num [rhe]
  have hlist : allocate_inventory [⟨0, 0, 0, 0, 2⟩] = [⟨0, 0, 0, some 2⟩] := by
    rw [allocate_inventory, hkeys]
    simp only [List.map_cons, List.map_nil]
    rw [hg, hc, h1]
    norm_num [rhe]
  obtain ⟨u, hu, h0, hle⟩ := allocate_inventory_totality_and_bounds.1 [⟨0, 0, 0, 0, 2⟩]
    (by intro r hr
        have hr2 : r = ⟨0, 0, 0, 0, 2⟩ := by simpa using hr
        subst hr2
        norm_num)
    (by intro k hk
        have hk2 : k = (0, 0, 0) := by simpa [cityKeys, dedupKeys] using hk
        subst hk2
        norm_num [groupDemand])
    (AllocationRow.mk 0 0 0 (some 2)) (by rw [hlist]; simp)
  have hu2 : u = 2 := by
    have : some (2 : ℤ) = some u := hu
    exact (Option.some.inj this).symm
  subst hu2
  exact ⟨rfl, h0, hle⟩

end LensOS
